/-
  Verification development for PyCloudSim, a discrete-event simulator for
  cloud and edge infrastructure running container-based microservice
  workloads.

  The definitions below are a shallow embedding of the Python sources under
  PyCloudSim/ (entity/v_user.py, entity/v_service.py, entity/v_cpu.py,
  entity/v_cpu_core.py, entity/v_container.py, entity/v_host.py,
  entity/v_gateway.py, entity/v_packet.py, entity/v_nic.py,
  entity/v_microservice.py, scheduler/volume_allocator.py,
  scheduler/host_provisioner.py).  Python numeric quantities (floats and
  unbounded ints) are embedded as Rat and Int; the Python call int(x)
  truncates toward zero and is embedded as pyInt.  Entity status sets
  (lists of status strings in the source) are embedded as lists over an
  inductive Status type.
-/
import Mathlib

namespace PyCloudSim

/-- Entity status constants (module PyCloudSim.status, re-exported with
star imports throughout the source; the full set is enumerated in the
Entity description of the data model). -/
inductive Status where
  | CREATED
  | STARTED
  | SCHEDULED
  | CACHED
  | EXECUTING
  | COMPLETED
  | FAILED
  | TERMINATED
  | READY
  | CORDON
  | POWERED_ON
  | QUEUED
  | DECODED
  | TRANSMITTING
  | DROPPED
  | PRIVISIONED
deriving DecidableEq, Repr

/-- Embedding of the Python builtin int(x) applied to a float: truncation
toward zero. -/
def pyInt (q : ℚ) : ℤ := if q < 0 then ⌈q⌉ else ⌊q⌋

/-- Modelled from the spec: the Resource primitive (class Resource of the
Akatosh library, which is a dependency of this repository and not part of
the sources).  A Resource has a capacity and a current available quantity;
distribute(owner, q) fails with CAPACITY_EXCEEDED when available < q and
otherwise lowers the available quantity by q; release returns quantity.
Claims in the sources are tracked by owner; this embedding keeps only the
quantities, which is all the verified code inspects. -/
structure Resource where
  capacity : ℚ
  available_quantity : ℚ
deriving DecidableEq, Repr

/-- Modelled from the spec: Resource.distribute fails (raises, embedded as
none) when the requested quantity exceeds the available quantity, and
otherwise subtracts it from the available quantity. -/
def Resource.distribute (r : Resource) (q : ℚ) : Option Resource :=
  if r.available_quantity < q then none
  else some { r with available_quantity := r.available_quantity - q }

/-- Modelled from the spec: Resource.release with an explicit quantity
returns that quantity to the pool. -/
def Resource.release (r : Resource) (q : ℚ) : Resource :=
  { r with available_quantity := r.available_quantity + q }

/-! ## Host provisioner (scheduler/host_provisioner.py) -/

/-- The slice of vHost state read and written by HostProvisioner.privision
(entity/v_host.py: the private _privisioned flag behind the privisioned
property, and the POWERED_ON status behind power_on / power_off). -/
structure PHost where
  privisioned : Bool
  powered_on : Bool
deriving DecidableEq, Repr

/-- Effects of one call of HostProvisioner.privision(host)
(scheduler/host_provisioner.py lines 36-62) on the host, together with a
flag recording whether the call nudged the container scheduler and the
volume allocator (which it does exactly when it did not return early). -/
structure PrivisionResult where
  host : PHost
  nudged : Bool
deriving DecidableEq, Repr

/-- Embedding of HostProvisioner.privision(host): when host.privisioned is
already set the call returns immediately, changing nothing; otherwise it
sets the flag, powers the host on and nudges the container scheduler and
the volume allocator (and, with power saving on, arms the recurring
evaluation). -/
def HostProvisioner.privision (h : PHost) : PrivisionResult :=
  if h.privisioned then { host := h, nudged := false }
  else { host := { privisioned := true, powered_on := true }, nudged := true }

/-- Embedding of the power-saving branch of the recurring evaluation in
HostProvisioner.privision: a powered-on host with zero containers is
powered off (host.power_off()); the privisioned flag is not touched
anywhere in the power-off path. -/
def HostProvisioner.power_off_evaluation (h : PHost) (numContainers : ℕ) : PHost :=
  if h.powered_on ∧ numContainers = 0 then { h with powered_on := false } else h

/-! ## User requests and workflows (entity/v_user.py) -/

/-- The slice of vUserRequest state involved in failure handling
(entity/v_user.py): the retry knob stored at construction, the status
list, whether the terminator has been engaged, and how many
"Initialize Workflow" actors have been scheduled (each such actor spawns
one new WorkFlow once the SFC is ready). -/
structure UserRequestState where
  retry : Bool
  status : List Status
  terminate_engaged : Bool
  pending_workflow_inits : ℕ
deriving DecidableEq, Repr

/-- Embedding of vUserRequest.fail (entity/v_user.py lines 267-273): the
body logs, then calls initialize_workflow with the backoff as delay —
unconditionally.  It never consults self.retry, never appends FAILED and
never calls terminate(). -/
def vUserRequest.fail (s : UserRequestState) : UserRequestState :=
  { s with pending_workflow_inits := s.pending_workflow_inits + 1 }

/-- Embedding of vUserRequest.complete (entity/v_user.py lines 275-279):
appends COMPLETED and engages the termination process. -/
def vUserRequest.complete (s : UserRequestState) : UserRequestState :=
  { s with status := s.status ++ [Status.COMPLETED], terminate_engaged := true }

/-- Embedding of WorkFlow.termination (entity/v_user.py lines 64-70): when
the terminating workflow carries COMPLETED the user request completes;
when it carries FAILED the user request fails. -/
def WorkFlow.termination (workflowStatus : List Status) (s : UserRequestState) :
    UserRequestState :=
  let s1 := if Status.COMPLETED ∈ workflowStatus then vUserRequest.complete s else s
  if Status.FAILED ∈ workflowStatus then vUserRequest.fail s1 else s1

/-! ## Load balancers (entity/v_service.py) -/

/-- The slice of vContainer state read by the four loadbalancer variants:
the status list (behind the scheduled, cordon and terminated properties)
and the CPU and RAM utilization figures used as sort keys by the best-fit
and worst-fit variants. -/
structure ContainerView where
  status : List Status
  cpuUtilization : ℚ
  ramUtilization : ℚ
deriving DecidableEq, Repr

/-- vContainer scheduled property: SCHEDULED is in the status list. -/
def ContainerView.scheduled (c : ContainerView) : Bool :=
  decide (Status.SCHEDULED ∈ c.status)

/-- vContainer cordon property: CORDON is in the status list. -/
def ContainerView.cordon (c : ContainerView) : Bool :=
  decide (Status.CORDON ∈ c.status)

/-- Entity terminated property: TERMINATED is in the status list. -/
def ContainerView.terminated (c : ContainerView) : Bool :=
  decide (Status.TERMINATED ∈ c.status)

/-- The while loop of vServiceRoundRobin.loadbalancer: read the container
under the pointer, advance the pointer cyclically, return the container if
it is scheduled, otherwise continue.  The loop in the source runs without
bound; since the guard preceding it guarantees a scheduled container
exists, visiting every index once suffices, so the embedding carries fuel
(instantiated with the list length).  An out-of-range pointer (an
IndexError in Python) is embedded as none. -/
def rrScan (cs : List ContainerView) : ℕ → ℕ → Option (ContainerView × ℕ)
  | _, 0 => none
  | ptr, fuel + 1 =>
    match cs[ptr]? with
    | none => none
    | some c =>
      if c.scheduled then some (c, (ptr + 1) % cs.length)
      else rrScan cs ((ptr + 1) % cs.length) fuel

/-- Embedding of vServiceRoundRobin.loadbalancer (entity/v_service.py
lines 99-113).  The three guards return None when no container is
scheduled, when all containers are cordoned, or when all are terminated;
otherwise the rotating-pointer loop returns the first scheduled container
at or after the pointer, with the advanced pointer. -/
def vServiceRoundRobin.loadbalancer (cs : List ContainerView) (ptr : ℕ) :
    Option (ContainerView × ℕ) :=
  if cs.all (fun c => c.scheduled = false) then none
  else if cs.all (fun c => c.cordon = true) then none
  else if cs.all (fun c => c.terminated = true) then none
  else rrScan cs ptr cs.length

/-- Embedding of vServiceBestFit.loadbalancer (entity/v_service.py lines
132-138): stable-sort the containers by RAM utilization, then by CPU
utilization (so CPU is the primary key), and return the first container
that is scheduled, not cordoned and not terminated; None when no container
qualifies. -/
def vServiceBestFit.loadbalancer (cs : List ContainerView) : Option ContainerView :=
  let sorted :=
    (cs.insertionSort (fun a b => a.ramUtilization ≤ b.ramUtilization)).insertionSort
      (fun a b => a.cpuUtilization ≤ b.cpuUtilization)
  sorted.find? (fun c => c.scheduled && !c.cordon && !c.terminated)

/-- Embedding of vServiceWorstFit.loadbalancer (entity/v_service.py lines
153-160): same sort as best fit, then walk the sorted list in reverse and
return the first container that is scheduled, not cordoned and not
terminated. -/
def vServiceWorstFit.loadbalancer (cs : List ContainerView) : Option ContainerView :=
  let sorted :=
    (cs.insertionSort (fun a b => a.ramUtilization ≤ b.ramUtilization)).insertionSort
      (fun a b => a.cpuUtilization ≤ b.cpuUtilization)
  sorted.reverse.find? (fun c => c.scheduled && !c.cordon && !c.terminated)

/-- The while loop of vServiceRandom.loadbalancer: draw a container with
random.choice until a scheduled one is found.  The random draws are
embedded as an oracle giving the index of each successive draw (taken
modulo the list length, so every oracle value names a list element);
fuel makes the unbounded loop structural. -/
def randomScan (cs : List ContainerView) (draws : ℕ → ℕ) : ℕ → Option ContainerView
  | 0 => none
  | fuel + 1 =>
    match cs[draws fuel % cs.length]? with
    | none => none
    | some c => if c.scheduled then some c else randomScan cs draws fuel

/-- Embedding of vServiceRandom.loadbalancer (entity/v_service.py lines
175-186): the same three guards as the round-robin variant, then repeated
random draws until a scheduled container comes up. -/
def vServiceRandom.loadbalancer (cs : List ContainerView) (draws : ℕ → ℕ)
    (fuel : ℕ) : Option ContainerView :=
  if cs.all (fun c => c.scheduled = false) then none
  else if cs.all (fun c => c.cordon = true) then none
  else if cs.all (fun c => c.terminated = true) then none
  else randomScan cs draws fuel

/-! ## Volume allocator (scheduler/volume_allocator.py) -/

/-- The slice of vHost state read by VolumeAllocator.allocate: taint
(embedded as a number; the source compares taints for equality only),
power state, and the available quantity of the ROM Resource. -/
structure AllocHost where
  taint : ℕ
  powered_on : Bool
  romAvailable : ℚ
deriving DecidableEq, Repr

/-- Host powered_off property (entity/v_physical_entity.py): the negation
of powered_on. -/
def AllocHost.powered_off (h : AllocHost) : Bool := !h.powered_on

/-- The slice of vVolume state read by VolumeAllocator.allocate. -/
structure AllocVolume where
  taint : ℕ
  size : ℚ
  allocated : Bool
  terminated : Bool
deriving DecidableEq, Repr

/-- Outcome of one volume of the allocation pass: either the volume is
allocated to the host at the given index of simulation.HOSTS, or it is
not allocated and the host provisioner is asked to privision the hosts
at the given indices. -/
inductive VolumeAllocOutcome where
  | allocatedTo (hostIdx : ℕ)
  | provisions (hostIdxs : List ℕ)
deriving DecidableEq, Repr

/-- The eligibility test of the inner host loop of VolumeAllocator.allocate
(scheduler/volume_allocator.py lines 44-48 with host affinity, 56-59
without): matching taint (affinity only), powered on, and enough available
ROM for the volume. -/
def volumeHostEligible (host_affinity : Bool) (h : AllocHost) (v : AllocVolume) : Bool :=
  (!host_affinity || (h.taint == v.taint)) && h.powered_on
    && (v.size ≤ h.romAvailable)

/-- Embedding of the per-volume body of VolumeAllocator.allocate
(scheduler/volume_allocator.py lines 38-76) for a volume that is neither
allocated nor terminated.  The inner for loop over simulation.HOSTS ends
in a break statement placed directly inside the loop body, after the if —
so the loop runs exactly one iteration and only the first host of the
list is ever tested.  When that first host passes the eligibility test,
host.allocate_volume is called and the volume is marked allocated; in
every other case the volume stays unallocated and the allocator asks the
host provisioner to privision hosts: with host affinity every host with
a matching taint, without affinity every powered-off host. -/
def VolumeAllocator.allocate_volume (host_affinity : Bool) (hosts : List AllocHost)
    (v : AllocVolume) : VolumeAllocOutcome :=
  let allocated :=
    match hosts.head? with
    | none => false
    | some h => volumeHostEligible host_affinity h v
  if allocated then .allocatedTo 0
  else
    if host_affinity then
      .provisions ((List.range hosts.length).filter fun i =>
        match hosts[i]? with
        | some h => h.taint == v.taint
        | none => false)
    else
      .provisions ((List.range hosts.length).filter fun i =>
        match hosts[i]? with
        | some h => h.powered_off
        | none => false)

/-- The behaviour the specification mandates for the same pass, written
from the words of the claim (first-fit): the volume goes to the first host
in iteration order that is powered on, taint-matching when affinity is
enabled, and has enough available ROM; only when no host qualifies are
powered-off hosts provisioned. -/
def specFirstFitAllocate (host_affinity : Bool) (hosts : List AllocHost)
    (v : AllocVolume) : VolumeAllocOutcome :=
  match (List.range hosts.length).find? (fun i =>
      match hosts[i]? with
      | some h => volumeHostEligible host_affinity h v
      | none => false) with
  | some i => .allocatedTo i
  | none =>
    if host_affinity then
      .provisions ((List.range hosts.length).filter fun i =>
        match hosts[i]? with
        | some h => h.taint == v.taint
        | none => false)
    else
      .provisions ((List.range hosts.length).filter fun i =>
        match hosts[i]? with
        | some h => h.powered_off
        | none => false)

/-! ## Packet caching (entity/v_packet.py, entity/v_host.py, entity/v_gateway.py) -/

/-- Physical entities are identified by node ids in the embedding; a packet
carries its path as the list of node ids computed at construction
(entity/v_packet.py lines 50-70: a loopback packet, source is destination,
gets the single-node path [source]). -/
structure PacketView where
  status : List Status
  path : List ℕ
  size : ℚ
  hasRequest : Bool
  requestFailed : Bool
  current_hop : ℕ
  scheduledFlagSet : Bool
  terminate_engaged : Bool
deriving DecidableEq, Repr

/-- Packet scheduled property: SCHEDULED is in the status list. -/
def PacketView.scheduled (p : PacketView) : Bool := decide (Status.SCHEDULED ∈ p.status)

/-- Packet completed property: COMPLETED is in the status list. -/
def PacketView.completed (p : PacketView) : Bool := decide (Status.COMPLETED ∈ p.status)

/-- Packet dropped property: DROPPED is in the status list. -/
def PacketView.dropped (p : PacketView) : Bool := decide (Status.DROPPED ∈ p.status)

/-- Embedding of vPacket.complete (entity/v_packet.py lines 94-105): when
the packet is not yet completed, append COMPLETED (unless the owning
request exists and has failed) and engage termination. -/
def vPacket.complete (p : PacketView) : PacketView :=
  if p.completed then p
  else
    let p1 :=
      if p.hasRequest then
        if !p.requestFailed then { p with status := p.status ++ [Status.COMPLETED] }
        else p
      else { p with status := p.status ++ [Status.COMPLETED] }
    { p1 with terminate_engaged := true }

/-- Embedding of vPacket.drop (entity/v_packet.py lines 107-111): when the
packet is not yet dropped, append DROPPED and engage termination. -/
def vPacket.drop (p : PacketView) : PacketView :=
  if p.dropped then p
  else { p with status := p.status ++ [Status.DROPPED], terminate_engaged := true }

/-- Result of caching a packet on a node: the node RAM Resource after the
call, the packet after the call, and whether a vPacketHandler process was
spawned on the node CPU by the call. -/
structure CacheResult where
  ram : Resource
  packet : PacketView
  handlerSpawned : Bool
deriving DecidableEq, Repr

/-- Common status bookkeeping of cache_packet: mark SCHEDULED (and record
the scheduling time) the first time, then append QUEUED and set the
current hop to the caching node. -/
def cacheMarkQueued (node : ℕ) (p : PacketView) : PacketView :=
  let p1 :=
    if !p.scheduled then
      { p with status := p.status ++ [Status.SCHEDULED], scheduledFlagSet := true }
    else p
  { p1 with status := p1.status ++ [Status.QUEUED], current_hop := node }

/-- Embedding of vHost.cache_packet (entity/v_host.py lines 137-156): first
reserve packet.size on the host RAM (a failed reservation raises out of
the method, embedded as none), then queue the packet and spawn a
vPacketHandler on the host CPU.  No loopback test appears anywhere in the
method: every packet, a loopback packet included, pays the RAM
reservation and gets a handler, and none is completed here. -/
def vHost.cache_packet (node : ℕ) (ram : Resource) (p : PacketView) :
    Option CacheResult :=
  match ram.distribute p.size with
  | none => none
  | some ram1 =>
    some { ram := ram1, packet := cacheMarkQueued node p, handlerSpawned := true }

/-- Embedding of vGateway.cache_packet (entity/v_gateway.py lines 61-75):
no RAM accounting and no handler; the packet is queued, marked DECODED at
once, and completed on the spot when the gateway is the last node of its
path. -/
def vGateway.cache_packet (node : ℕ) (ram : Resource) (p : PacketView) : CacheResult :=
  let p1 := cacheMarkQueued node p
  let p2 := { p1 with status := p1.status ++ [Status.DECODED] }
  let p3 := if p2.path.getLast? = some node then vPacket.complete p2 else p2
  { ram := ram, packet := p3, handlerSpawned := false }

/-! ## CPU process scheduling (entity/v_cpu.py, entity/v_cpu_core.py) -/

/-- The slice of vProcess state read by vCPU.schedule_process: length,
progress and current scheduled length (Python ints, embedded as Int) and
whether the process is a vPacketHandler (the source tests the class
name). -/
structure SchedProcView where
  length : ℤ
  progress : ℤ
  current_scheduled_length : ℤ
  isPacketHandler : Bool
deriving DecidableEq, Repr

/-- vProcess.remaining: length minus progress. -/
def SchedProcView.remaining (p : SchedProcView) : ℤ := p.length - p.progress

/-- The schedulable instruction length computed by vCPU.schedule_process
(entity/v_cpu.py lines 103-122) for one process on one core:
int(min([remaining_to_schedule, container_allowed, core_availablity])).
remaining_to_schedule is process.remaining - process.current_scheduled_length;
container_allowed is container.cpu.available_quantity / 1000 * core.capacity
for a regular process and the float inf for a vPacketHandler, so for a
handler the inf entry drops out of the min. -/
def vCPU.schedulableLength (p : SchedProcView) (containerAvailable : ℚ)
    (coreCapacity : ℚ) (coreAvailable : ℚ) : ℤ :=
  let remaining_to_schedule : ℚ := ((p.remaining - p.current_scheduled_length : ℤ) : ℚ)
  if p.isPacketHandler then
    pyInt (min remaining_to_schedule coreAvailable)
  else
    pyInt (min remaining_to_schedule
      (min (containerAvailable / 1000 * coreCapacity) coreAvailable))

/-- The state touched by one (process, core) iteration of
vCPU.schedule_process: whether core.execute_process was called and with
which length, the process current_scheduled_length afterwards, the core
available instructions afterwards (core.execute_process distributes the
length on the core computational power Resource,
entity/v_cpu_core.py line 79), and the container CPU Resource available
quantity afterwards. -/
structure ScheduleStepResult where
  executedLength : Option ℤ
  current_scheduled_length : ℤ
  coreAvailable : ℚ
  containerAvailable : ℚ
deriving DecidableEq, Repr

/-- Embedding of one (process, core) iteration of the double loop of
vCPU.schedule_process (entity/v_cpu.py lines 100-135): compute the
schedulable instruction length; when it is positive, call
core.execute_process with it, add it to the process
current_scheduled_length and, for a regular process, distribute
schedulable_length / core.capacity * 1000 millicore-seconds of CPU time
on the container CPU Resource; otherwise do nothing. -/
def vCPU.scheduleStep (p : SchedProcView) (containerAvailable : ℚ)
    (coreCapacity : ℚ) (coreAvailable : ℚ) : ScheduleStepResult :=
  let n := vCPU.schedulableLength p containerAvailable coreCapacity coreAvailable
  if 0 < n then
    { executedLength := some n
      current_scheduled_length := p.current_scheduled_length + n
      coreAvailable := coreAvailable - (n : ℚ)
      containerAvailable :=
        if p.isPacketHandler then containerAvailable
        else containerAvailable - (n : ℚ) / coreCapacity * 1000 }
  else
    { executedLength := none
      current_scheduled_length := p.current_scheduled_length
      coreAvailable := coreAvailable
      containerAvailable := containerAvailable }

/-- A core of a vCPU as seen by the scheduling pass: the capacity and the
available quantity of its computational power Resource. -/
structure CoreView where
  capacity : ℚ
  available : ℚ
deriving DecidableEq, Repr

/-- The inner core loop of vCPU.schedule_process for one process: apply
the per-core step to each core in list order, threading the process
current_scheduled_length and the container CPU Resource. -/
def vCPU.scheduleOnCores (cores : List CoreView) (p : SchedProcView)
    (containerAvailable : ℚ) : List CoreView × SchedProcView × ℚ :=
  match cores with
  | [] => ([], p, containerAvailable)
  | core :: rest =>
    let r := vCPU.scheduleStep p containerAvailable core.capacity core.available
    let p1 := { p with current_scheduled_length := r.current_scheduled_length }
    let (rest1, p2, ca2) := vCPU.scheduleOnCores rest p1 r.containerAvailable
    ({ core with available := r.coreAvailable } :: rest1, p2, ca2)

/-- A queued process of a vCPU with its priority and the CPU Resource
available quantity of its owning container. -/
structure QueuedProc where
  priority : ℚ
  proc : SchedProcView
  containerAvailable : ℚ
deriving DecidableEq, Repr

/-- Embedding of the scheduling pass of vCPU.schedule_process
(entity/v_cpu.py lines 92-141): stable-sort the queued processes by
priority ascending, then run the core loop for each process in order.
Container CPU Resources are tracked per process in this embedding (one
owning container per queued process). -/
def vCPU.schedule_process (procs : List QueuedProc) (cores : List CoreView) :
    List QueuedProc × List CoreView :=
  let sorted := procs.insertionSort (fun a b => a.priority ≤ b.priority)
  sorted.foldl
    (fun (acc : List QueuedProc × List CoreView) q =>
      let (done, cs) := acc
      let (cs1, p1, ca1) := vCPU.scheduleOnCores cs q.proc q.containerAvailable
      (done ++ [{ q with proc := p1, containerAvailable := ca1 }], cs1))
    ([], cores)

/-- Per-process state for the over-scheduling invariant: the fixed length,
the progress, and the outstanding chunks that cores are currently
executing (each recorded when core.execute_process is called and cleared
by that call of _clear_executed_instructions).  The process
current_scheduled_length in the source equals the sum of the outstanding
chunks: it is incremented by each schedule step and decremented by each
clearance. -/
structure CpuProcState where
  length : ℤ
  progress : ℤ
  outstanding : List ℤ
deriving DecidableEq, Repr

/-- The current scheduled length of the process: the sum of the chunks
handed to cores and not yet cleared. -/
def CpuProcState.current_scheduled_length (s : CpuProcState) : ℤ := s.outstanding.sum

/-- The two actions of the source that move the progress and scheduled
length of one process:

a schedule step (vCPU.schedule_process, entity/v_cpu.py lines 100-135)
hands a chunk to a core when the schedulable length computed from the
container and core budgets is positive, and adds it to
current_scheduled_length;

a clearance (_clear_executed_instructions inside vCPUCore.execute_process,
entity/v_cpu_core.py lines 87-94, for a process that has not failed) adds
the executed chunk to progress and subtracts it from
current_scheduled_length. -/
inductive CpuStep : CpuProcState → CpuProcState → Prop
  | schedule (s : CpuProcState) (handler : Bool)
      (containerAvailable coreCapacity coreAvailable : ℚ) (chunk : ℤ)
      (hchunk : chunk = vCPU.schedulableLength
        ⟨s.length, s.progress, s.current_scheduled_length, handler⟩
        containerAvailable coreCapacity coreAvailable)
      (hpos : 0 < chunk) :
      CpuStep s { s with outstanding := s.outstanding ++ [chunk] }
  | clear (s : CpuProcState) (n : ℤ) (pre post : List ℤ)
      (h : s.outstanding = pre ++ n :: post) :
      CpuStep s { length := s.length, progress := s.progress + n,
                  outstanding := pre ++ post }

/-- A process state is reachable when it arises from a fresh process
(progress 0, nothing scheduled) by schedule and clearance steps. -/
def CpuReachable (len : ℤ) (s : CpuProcState) : Prop :=
  Relation.ReflTransGen CpuStep { length := len, progress := 0, outstanding := [] } s

/-! ## Container crash cascade (entity/v_container.py, entity/v_microservice.py) -/

/-- The slice of vProcess state touched by the crash cascade. -/
structure ProcRec where
  failed : Bool
  terminated : Bool
deriving DecidableEq, Repr

/-- The slice of vVolume state touched by the crash cascade. -/
structure VolRec where
  retain : Bool
  attached : Bool
  terminated : Bool
deriving DecidableEq, Repr

/-- The slice of vRequest state touched by the crash cascade and by a
packet drop. -/
structure ReqRec where
  failed : Bool
  terminated : Bool
deriving DecidableEq, Repr

/-- Embedding of vProcess.crash (entity/v_process.py lines 162-172) on the
modeled slice: when the process has not failed, mark it FAILED and
terminate it (the request propagation is modeled where a request is in
scope). -/
def vProcess.crash (p : ProcRec) : ProcRec :=
  if p.failed then p else { failed := true, terminated := true }

/-- Embedding of vRequest.fail (entity/v_request.py lines 432-439) on the
modeled slice: when the request has not failed, mark it FAILED and
terminate it (the flow propagation is modeled in the workflow section). -/
def vRequest.fail (r : ReqRec) : ReqRec :=
  if r.failed then r else { failed := true, terminated := true }

/-- The slice of vContainer state touched by accept_process and the crash
cascade: the status list, the resident processes, the attached volumes,
the accepted requests, and the RAM Resource of the container. -/
structure ContainerState where
  status : List Status
  processes : List ProcRec
  volumes : List VolRec
  requests : List ReqRec
  ram : Resource
deriving DecidableEq, Repr

/-- vContainer failed property: FAILED is in the status list. -/
def ContainerState.failed (c : ContainerState) : Bool :=
  decide (Status.FAILED ∈ c.status)

/-- Result of the termination of a container: the final status list, the
processes, volumes and requests after the cascade, the volumes that were
detached because they are retained, and the volumes of the replacement
container instantiated by vMicroservice.recover (none when no recovery
was scheduled). -/
structure CrashResult where
  status : List Status
  processes : List ProcRec
  volumes : List VolRec
  requests : List ReqRec
  detached : List VolRec
  replacement : Option (List VolRec)
deriving DecidableEq, Repr

/-- Embedding of vMicroservice.recover (entity/v_microservice.py lines
189-234) on the modeled slice: unless the microservice is terminated, one
replacement container is instantiated and every detached (retained)
volume is attached to it (vVolume.attach sets the attached flag). -/
def vMicroservice.recover (msTerminated : Bool) (detached : List VolRec) :
    Option (List VolRec) :=
  if msTerminated then none
  else some (detached.map fun v => { v with attached := true })

/-- Embedding of vContainer.termination (entity/v_container.py lines
139-179) on the modeled slice, for a container whose terminator has fired:
retained volumes are detached and collected, non-retained volumes are
terminated; every process that is not terminated is crashed; every
request that is not terminated fails; when the container carries FAILED,
vMicroservice.recover is invoked with the detached volumes.  (The
host-side releases of the rom, cpu and ram reservors concern host state
outside this slice.) -/
def vContainer.termination (c : ContainerState) (msTerminated : Bool) : CrashResult :=
  let detached := (c.volumes.filter fun v => v.retain).map fun v => { v with attached := false }
  let volumes := c.volumes.map fun v =>
    if v.retain then { v with attached := false } else { v with terminated := true }
  let processes := c.processes.map fun p => if !p.terminated then vProcess.crash p else p
  let requests := c.requests.map fun r => if !r.terminated then vRequest.fail r else r
  { status := c.status
    processes := processes
    volumes := volumes
    requests := requests
    detached := detached
    replacement :=
      if c.failed then vMicroservice.recover msTerminated detached else none }

/-- Embedding of vContainer.crash (entity/v_container.py lines 181-187):
when the container has not failed, append FAILED and engage termination;
the terminator then appends TERMINATED and runs vContainer.termination.
A crash of an already failed container is a no-op, embedded as none. -/
def vContainer.crash (c : ContainerState) (msTerminated : Bool) : Option CrashResult :=
  if c.failed then none
  else
    some (vContainer.termination
      { c with status := c.status ++ [Status.FAILED, Status.TERMINATED] } msTerminated)

/-- Outcome of vContainer.accept_process: either the process was accepted
(with the container and the host RAM Resource after the reservations) or
the container crashed. -/
inductive AcceptOutcome where
  | accepted (c : ContainerState) (hostRam : Resource)
  | crashed (r : Option CrashResult) (hostRam : Resource)
deriving DecidableEq, Repr

/-- Embedding of vContainer.accept_process (entity/v_container.py lines
103-137): append the incoming process (live, marked SCHEDULED), then
attempt to reserve its ram_usage on the container RAM Resource and on the
host RAM Resource; when either distribute raises, the container crashes
and the method returns. -/
def vContainer.accept_process (c : ContainerState) (hostRam : Resource)
    (ramUsage : ℚ) (msTerminated : Bool) : AcceptOutcome :=
  let c1 := { c with processes := c.processes ++ [{ failed := false, terminated := false }] }
  match c1.ram.distribute ramUsage with
  | none => .crashed (vContainer.crash c1 msTerminated) hostRam
  | some ram1 =>
    let c2 := { c1 with ram := ram1 }
    match hostRam.distribute ramUsage with
    | none => .crashed (vContainer.crash c2 msTerminated) hostRam
    | some hostRam1 => .accepted c2 hostRam1

/-! ## Packet arrival at the peer (entity/v_nic.py) -/

/-- The state after the receiving side of a transmission fires
(_received_packet inside vNIC.receive_packet): whether the peer accepted
the packet, the peer RAM Resource, the receiver uplink Resource, the
packet, and the owning request of the packet when it has one. -/
structure ArrivalResult where
  delivered : Bool
  ram : Resource
  uplink : Resource
  packet : PacketView
  request : Option ReqRec
deriving DecidableEq, Repr

/-- Embedding of _received_packet in vNIC.receive_packet (entity/v_nic.py
lines 96-109): release the uplink, remove TRANSMITTING and DECODED from
the packet status, then invoke cache_packet on the attached node.  When
cache_packet raises (the RAM distribution fails), the packet is dropped;
its terminator then appends TERMINATED and runs vPacket.termination
(entity/v_packet.py lines 81-92), which fails the owning request of a
dropped packet. -/
def vNIC.receive_packet_arrival (node : ℕ) (hostRam : Resource) (uplink : Resource)
    (p : PacketView) (req : Option ReqRec) : ArrivalResult :=
  let uplink1 := uplink.release p.size
  let p1 := { p with status := (p.status.erase Status.TRANSMITTING).erase Status.DECODED }
  match vHost.cache_packet node hostRam p1 with
  | some res =>
    { delivered := true, ram := res.ram, uplink := uplink1,
      packet := res.packet, request := req }
  | none =>
    let p2 := vPacket.drop p1
    let p3 := { p2 with status := p2.status ++ [Status.TERMINATED] }
    { delivered := false, ram := hostRam, uplink := uplink1, packet := p3,
      request := if p3.dropped then req.map vRequest.fail else req }

/-! ## Workflow completion and failure (entity/v_user.py, entity/v_request.py) -/

/-- The observable flags of one WorkFlow together with the number of
requests of its chain that have not yet terminated.
initialize_requests (entity/v_user.py lines 72-118) builds the chain with
strict after-dependencies: each request is created only after the
previous one has terminated, so at most one request of the flow is live
at a time, and the creation of a request whose flow has already failed is
cancelled (entity/v_request.py creation). -/
structure WorkflowState where
  completed : Bool
  failed : Bool
  terminated : Bool
  remaining : ℕ
deriving DecidableEq, Repr

/-- The events that move the flags of one WorkFlow:

a request before the last one terminates as completed, and the chain
moves on;

the last request terminates as completed, firing its on_termination
lambda (entity/v_user.py lines 111-115), which calls WorkFlow.complete
only when the last request completed and the flow has not failed;
WorkFlow.complete (lines 120-124) appends COMPLETED and terminates;

the live request fails: vRequest.fail (entity/v_request.py lines 432-439)
calls flow.fail(); WorkFlow.fail (entity/v_user.py lines 126-130) appends
FAILED and terminates, and the remaining requests of the chain are never
created.  A terminated request cannot fail again: every path into
vRequest.fail is guarded on the request being live. -/
inductive WorkflowStep : WorkflowState → WorkflowState → Prop
  | request_completes_mid (s : WorkflowState) (h : 2 ≤ s.remaining) :
      WorkflowStep s { s with remaining := s.remaining - 1 }
  | request_completes_last (s : WorkflowState) (h : s.remaining = 1) :
      WorkflowStep s
        (if s.failed then { s with remaining := 0 }
         else { completed := true, failed := s.failed, terminated := true,
                remaining := 0 })
  | request_fails (s : WorkflowState) (h : 1 ≤ s.remaining) :
      WorkflowStep s
        { completed := s.completed, failed := true, terminated := true,
          remaining := 0 }

/-- A workflow state is reachable when it arises from a fresh workflow
with a chain of n requests by the events above. -/
def WorkflowReachable (n : ℕ) (s : WorkflowState) : Prop :=
  Relation.ReflTransGen WorkflowStep
    { completed := false, failed := false, terminated := false, remaining := n } s

/-- The chunk formula in the words of the specification, for comparison
with the one computed by the source: floor of the minimum of the length
left to schedule, the container CPU budget (infinite for a packet
handler, so it drops out of the minimum), and the available instructions
of the core. -/
def specChunkFormula (p : SchedProcView) (containerAvailable : ℚ)
    (coreCapacity : ℚ) (coreAvailable : ℚ) : ℤ :=
  if p.isPacketHandler then
    ⌊min ((p.length - p.progress - p.current_scheduled_length : ℤ) : ℚ) coreAvailable⌋
  else
    ⌊min ((p.length - p.progress - p.current_scheduled_length : ℤ) : ℚ)
      (min (containerAvailable / 1000 * coreCapacity) coreAvailable)⌋

/-!
## Theorems
-/

/-- C10: HostProvisioner.privision(host) is one-shot per host: the first
call permanently sets the privisioned flag of the host, every later call
on the same host returns without changing any state (and without nudging
the schedulers), and the power-saving power-off path never clears the
flag — so a host that was provisioned once and then powered off can never
be powered on again through privision. -/
theorem HostProvisioner.privision_one_shot :
    (∀ h : PHost, ((HostProvisioner.privision h).host).privisioned = true) ∧
    (∀ h : PHost, h.privisioned = true →
      HostProvisioner.privision h = { host := h, nudged := false }) ∧
    (∀ (h : PHost) (n : ℕ),
      (HostProvisioner.power_off_evaluation h n).privisioned = h.privisioned) := by
  refine ⟨?_, ?_, ?_⟩
  · intro h
    unfold HostProvisioner.privision
    split <;> simp_all
  · intro h hp
    unfold HostProvisioner.privision
    simp [hp]
  · intro h n
    unfold HostProvisioner.power_off_evaluation
    split <;> rfl

/-- Witness for C10: a host that is privisioned but powered off (the state
after the power-saving evaluation powered it off) is returned unchanged by
privision — it stays powered off. -/
theorem HostProvisioner.privision_one_shot_witness :
    (⟨true, false⟩ : PHost).privisioned = true ∧
    HostProvisioner.privision ⟨true, false⟩ =
      { host := ⟨true, false⟩, nudged := false } :=
  ⟨rfl, HostProvisioner.privision_one_shot.2.1 ⟨true, false⟩ rfl⟩

/-- C1: evaluation of the failure path on a user request whose retry flag
is disabled.  When a workflow of the request terminates as FAILED,
WorkFlow.termination calls vUserRequest.fail, which schedules a new
workflow initialization (after the backoff delay) without consulting the
retry flag: the pending initialization count rises to 1 while the status
list stays unchanged (no FAILED) and the terminator is never engaged —
the code retries even though retry is disabled, contradicting the
docstring of vUserRequest.fail. -/
theorem vUserRequest_fail_ignores_retry :
    (WorkFlow.termination [Status.FAILED, Status.TERMINATED]
        ⟨false, [Status.CREATED], false, 0⟩).pending_workflow_inits = 1 ∧
    (WorkFlow.termination [Status.FAILED, Status.TERMINATED]
        ⟨false, [Status.CREATED], false, 0⟩).status = [Status.CREATED] ∧
    (WorkFlow.termination [Status.FAILED, Status.TERMINATED]
        ⟨false, [Status.CREATED], false, 0⟩).terminate_engaged = false := by
  decide

/-- C3: evaluation of the volume-allocation pass at a concrete input with
two hosts — the first powered off, the second powered on with ample ROM —
and one unallocated volume.  The source (whose inner host loop breaks
unconditionally after its first iteration) leaves the volume unallocated
and provisions the powered-off host, while the first-fit behaviour the
specification mandates allocates the volume to the second host. -/
theorem VolumeAllocator_skips_eligible_host :
    VolumeAllocator.allocate_volume false
        [⟨0, false, 100⟩, ⟨0, true, 100⟩] ⟨0, 10, false, false⟩ =
      VolumeAllocOutcome.provisions [0] ∧
    specFirstFitAllocate false
        [⟨0, false, 100⟩, ⟨0, true, 100⟩] ⟨0, 10, false, false⟩ =
      VolumeAllocOutcome.allocatedTo 1 := by
  decide

/-- The round-robin while loop only ever returns a container that passed
its scheduled test. -/
theorem rrScan_scheduled (cs : List ContainerView) :
    ∀ (fuel ptr : ℕ) (c : ContainerView) (q : ℕ),
      rrScan cs ptr fuel = some (c, q) → c.scheduled = true := by
  intro fuel
  induction fuel with
  | zero =>
    intro ptr c q h
    simp [rrScan] at h
  | succ n ih =>
    intro ptr c q h
    unfold rrScan at h
    cases hg : cs[ptr]? with
    | none => simp only [hg] at h; exact absurd h (by simp)
    | some d =>
      simp only [hg] at h
      by_cases hd : d.scheduled = true
      · rw [if_pos hd] at h
        simp only [Option.some.injEq, Prod.mk.injEq] at h
        rw [← h.1]
        exact hd
      · rw [if_neg hd] at h
        exact ih _ _ _ h

/-- The random-draw while loop only ever returns a container that passed
its scheduled test. -/
theorem randomScan_scheduled (cs : List ContainerView) (draws : ℕ → ℕ) :
    ∀ (fuel : ℕ) (c : ContainerView),
      randomScan cs draws fuel = some c → c.scheduled = true := by
  intro fuel
  induction fuel with
  | zero =>
    intro c h
    simp [randomScan] at h
  | succ n ih =>
    intro c h
    unfold randomScan at h
    cases hg : cs[draws n % cs.length]? with
    | none => simp only [hg] at h; exact absurd h (by simp)
    | some d =>
      simp only [hg] at h
      by_cases hd : d.scheduled = true
      · rw [if_pos hd] at h
        simp only [Option.some.injEq] at h
        rw [← h]
        exact hd
      · rw [if_neg hd] at h
        exact ih _ h

/-- C2 counterexample: with two containers — the first scheduled and
cordoned, the second scheduled and clean — and the pointer on the first,
the round-robin loadbalancer returns the cordoned container, because its
while loop tests only the scheduled property. -/
theorem roundrobin_returns_cordoned_container :
    vServiceRoundRobin.loadbalancer
        [⟨[Status.SCHEDULED, Status.CORDON], 0, 0⟩, ⟨[Status.SCHEDULED], 0, 0⟩] 0 =
      some (⟨[Status.SCHEDULED, Status.CORDON], 0, 0⟩, 1) ∧
    ContainerView.cordon ⟨[Status.SCHEDULED, Status.CORDON], 0, 0⟩ = true := by
  decide

/-- C2 amended: a non-null container returned by any loadbalancer variant
is SCHEDULED; the best-fit and worst-fit variants additionally guarantee
that it is not CORDON and not terminated, while the round-robin and
random variants do not re-test those two properties in their selection
loops. -/
theorem loadbalancer_returned_container_spec :
    (∀ (cs : List ContainerView) (ptr : ℕ) (c : ContainerView) (q : ℕ),
        vServiceRoundRobin.loadbalancer cs ptr = some (c, q) → c.scheduled = true) ∧
    (∀ (cs : List ContainerView) (draws : ℕ → ℕ) (fuel : ℕ) (c : ContainerView),
        vServiceRandom.loadbalancer cs draws fuel = some c → c.scheduled = true) ∧
    (∀ (cs : List ContainerView) (c : ContainerView),
        vServiceBestFit.loadbalancer cs = some c →
          c.scheduled = true ∧ c.cordon = false ∧ c.terminated = false) ∧
    (∀ (cs : List ContainerView) (c : ContainerView),
        vServiceWorstFit.loadbalancer cs = some c →
          c.scheduled = true ∧ c.cordon = false ∧ c.terminated = false) := by
  refine ⟨?_, ?_, ?_, ?_⟩
  · intro cs ptr c q h
    unfold vServiceRoundRobin.loadbalancer at h
    split at h
    · exact absurd h (by simp)
    · split at h
      · exact absurd h (by simp)
      · split at h
        · exact absurd h (by simp)
        · exact rrScan_scheduled cs _ _ _ _ h
  · intro cs draws fuel c h
    unfold vServiceRandom.loadbalancer at h
    split at h
    · exact absurd h (by simp)
    · split at h
      · exact absurd h (by simp)
      · split at h
        · exact absurd h (by simp)
        · exact randomScan_scheduled cs draws _ _ h
  · intro cs c h
    unfold vServiceBestFit.loadbalancer at h
    have hp := List.find?_some h
    simp only [Bool.and_eq_true, Bool.not_eq_true'] at hp
    exact ⟨hp.1.1, hp.1.2, hp.2⟩
  · intro cs c h
    unfold vServiceWorstFit.loadbalancer at h
    have hp := List.find?_some h
    simp only [Bool.and_eq_true, Bool.not_eq_true'] at hp
    exact ⟨hp.1.1, hp.1.2, hp.2⟩

/-- Witness for the amended C2: the round-robin and best-fit variants
evaluated on one clean scheduled container return it, and the guarantees
of the amended claim hold there. -/
theorem loadbalancer_returned_container_spec_witness :
    vServiceRoundRobin.loadbalancer [⟨[Status.SCHEDULED], 0, 0⟩] 0 =
      some (⟨[Status.SCHEDULED], 0, 0⟩, 0) ∧
    ContainerView.scheduled ⟨[Status.SCHEDULED], 0, 0⟩ = true ∧
    vServiceBestFit.loadbalancer [⟨[Status.SCHEDULED], 0, 0⟩] =
      some ⟨[Status.SCHEDULED], 0, 0⟩ ∧
    (ContainerView.scheduled ⟨[Status.SCHEDULED], 0, 0⟩ = true ∧
      ContainerView.cordon ⟨[Status.SCHEDULED], 0, 0⟩ = false ∧
      ContainerView.terminated ⟨[Status.SCHEDULED], 0, 0⟩ = false) :=
  ⟨by decide,
    loadbalancer_returned_container_spec.1 [⟨[Status.SCHEDULED], 0, 0⟩] 0
      ⟨[Status.SCHEDULED], 0, 0⟩ 0 (by decide),
    by decide,
    loadbalancer_returned_container_spec.2.2.1 [⟨[Status.SCHEDULED], 0, 0⟩]
      ⟨[Status.SCHEDULED], 0, 0⟩ (by decide)⟩

/-- Truncation toward zero agrees with floor on any value it sends to a
positive integer. -/
theorem pyInt_eq_floor_of_pos (q : ℚ) (h : 0 < pyInt q) : pyInt q = ⌊q⌋ := by
  unfold pyInt at h ⊢
  by_cases hneg : q < 0
  · rw [if_pos hneg] at h
    have hle : ⌈q⌉ ≤ 0 := Int.ceil_le.mpr (by exact_mod_cast hneg.le)
    exact absurd h (not_lt.mpr hle)
  · rw [if_neg hneg]

/-- Truncation toward zero of a value bounded by an integer stays below
that integer, provided the truncation is positive. -/
theorem pyInt_le_int (q : ℚ) (m : ℤ) (hq : q ≤ (m : ℚ)) (hpos : 0 < pyInt q) :
    pyInt q ≤ m := by
  rw [pyInt_eq_floor_of_pos q hpos]
  calc ⌊q⌋ ≤ ⌊(m : ℚ)⌋ := Int.floor_le_floor hq
    _ = m := Int.floor_intCast m

/-- A positive schedulable instruction length never exceeds the length
still to schedule for the process. -/
theorem schedulableLength_le_remaining (p : SchedProcView) (ca cap av : ℚ)
    (h : 0 < vCPU.schedulableLength p ca cap av) :
    vCPU.schedulableLength p ca cap av ≤
      p.length - p.progress - p.current_scheduled_length := by
  unfold vCPU.schedulableLength at h ⊢
  by_cases hh : p.isPacketHandler
  · rw [if_pos hh] at h ⊢
    refine pyInt_le_int _ _ ?_ h
    simp [SchedProcView.remaining, sub_sub]
  · rw [if_neg hh] at h ⊢
    refine pyInt_le_int _ _ ?_ h
    simp [SchedProcView.remaining, sub_sub]

/-- A positive schedulable instruction length is exactly the chunk of the
specification formula (floor of the minimum of the three budgets). -/
theorem schedulableLength_eq_spec (p : SchedProcView) (ca cap av : ℚ)
    (h : 0 < vCPU.schedulableLength p ca cap av) :
    vCPU.schedulableLength p ca cap av = specChunkFormula p ca cap av := by
  unfold vCPU.schedulableLength at h ⊢
  unfold specChunkFormula
  by_cases hh : p.isPacketHandler
  · rw [if_pos hh] at h ⊢
    rw [pyInt_eq_floor_of_pos _ h]
    simp [hh, SchedProcView.remaining, sub_sub]
  · rw [if_neg hh] at h ⊢
    rw [pyInt_eq_floor_of_pos _ h]
    simp [hh, SchedProcView.remaining, sub_sub]

/-- C5: for one queued process on one core, the chunk handed to the core
by the scheduling pass equals the floor of the minimum of the length
still to schedule, the container CPU budget
available_quantity / 1000 × core capacity (infinite for a packet
handler), and the available instructions of the core; the core executes
the chunk (and has it distributed on its computational power) only when
it is positive, the process current_scheduled_length rises by the chunk,
and for a regular process chunk / core capacity × 1000 millicore-seconds
of CPU time are distributed on the container CPU Resource; a
non-positive chunk changes nothing. -/
theorem vCPU_scheduleStep_spec (p : SchedProcView)
    (containerAvailable coreCapacity coreAvailable : ℚ) :
    (0 < vCPU.schedulableLength p containerAvailable coreCapacity coreAvailable →
      vCPU.scheduleStep p containerAvailable coreCapacity coreAvailable =
        { executedLength :=
            some (specChunkFormula p containerAvailable coreCapacity coreAvailable)
          current_scheduled_length := p.current_scheduled_length +
            specChunkFormula p containerAvailable coreCapacity coreAvailable
          coreAvailable := coreAvailable -
            ((specChunkFormula p containerAvailable coreCapacity coreAvailable : ℤ) : ℚ)
          containerAvailable :=
            if p.isPacketHandler then containerAvailable
            else containerAvailable -
              ((specChunkFormula p containerAvailable coreCapacity coreAvailable : ℤ) : ℚ)
                / coreCapacity * 1000 }) ∧
    (vCPU.schedulableLength p containerAvailable coreCapacity coreAvailable ≤ 0 →
      vCPU.scheduleStep p containerAvailable coreCapacity coreAvailable =
        { executedLength := none
          current_scheduled_length := p.current_scheduled_length
          coreAvailable := coreAvailable
          containerAvailable := containerAvailable }) := by
  constructor
  · intro h
    have he := schedulableLength_eq_spec p containerAvailable coreCapacity coreAvailable h
    unfold vCPU.scheduleStep
    rw [if_pos h, he]
  · intro h
    unfold vCPU.scheduleStep
    rw [if_neg (not_lt.mpr h)]

/-- Witness for C5: a packet-handler process of length 10 on a core with
4 available instructions gets a positive chunk, and the scheduling step
behaves as stated. -/
theorem vCPU_scheduleStep_spec_witness :
    0 < vCPU.schedulableLength ⟨10, 0, 0, true⟩ 0 1 4 ∧
    vCPU.scheduleStep ⟨10, 0, 0, true⟩ 0 1 4 =
      { executedLength := some (specChunkFormula ⟨10, 0, 0, true⟩ 0 1 4)
        current_scheduled_length :=
          (⟨10, 0, 0, true⟩ : SchedProcView).current_scheduled_length +
            specChunkFormula ⟨10, 0, 0, true⟩ 0 1 4
        coreAvailable := 4 - ((specChunkFormula ⟨10, 0, 0, true⟩ 0 1 4 : ℤ) : ℚ)
        containerAvailable :=
          if (⟨10, 0, 0, true⟩ : SchedProcView).isPacketHandler then 0
          else 0 - ((specChunkFormula ⟨10, 0, 0, true⟩ 0 1 4 : ℤ) : ℚ) / 1 * 1000 } :=
  ⟨by decide, (vCPU_scheduleStep_spec ⟨10, 0, 0, true⟩ 0 1 4).1 (by decide)⟩

/-- One schedule or clearance step preserves the over-scheduling
invariant, the positivity of outstanding chunks included. -/
theorem CpuStep_preserves_invariant (s t : CpuProcState)
    (h1 : 0 ≤ s.progress) (h2 : ∀ n ∈ s.outstanding, 0 < n)
    (h3 : s.progress + s.current_scheduled_length ≤ s.length)
    (st : CpuStep s t) :
    0 ≤ t.progress ∧ (∀ n ∈ t.outstanding, 0 < n) ∧
      t.progress + t.current_scheduled_length ≤ t.length := by
  cases st with
  | schedule handler containerAvailable coreCapacity coreAvailable chunk hchunk hpos =>
    refine ⟨h1, ?_, ?_⟩
    · intro n hn
      rcases List.mem_append.mp hn with hn | hn
      · exact h2 n hn
      · rw [List.mem_singleton.mp hn]
        exact hpos
    · have hpos2 : 0 < vCPU.schedulableLength
          ⟨s.length, s.progress, s.current_scheduled_length, handler⟩
          containerAvailable coreCapacity coreAvailable := hchunk ▸ hpos
      have hle := schedulableLength_le_remaining _ _ _ _ hpos2
      rw [← hchunk] at hle
      simp only [CpuProcState.current_scheduled_length, List.sum_append,
        List.sum_cons, List.sum_nil, add_zero] at hle h3 ⊢
      omega
  | clear n pre post hsplit =>
    have hnpos : 0 < n := by
      refine h2 n ?_
      rw [hsplit]
      exact List.mem_append.mpr (Or.inr (List.mem_cons_self _ _))
    have h3b : s.progress + (pre.sum + (n + post.sum)) ≤ s.length := by
      simpa [CpuProcState.current_scheduled_length, hsplit, List.sum_append] using h3
    refine ⟨?_, ?_, ?_⟩
    · show 0 ≤ s.progress + n
      omega
    · intro m hm
      refine h2 m ?_
      rw [hsplit]
      rcases List.mem_append.mp hm with hm | hm
      · exact List.mem_append.mpr (Or.inl hm)
      · exact List.mem_append.mpr (Or.inr (List.mem_cons_of_mem _ hm))
    · show s.progress + n + (pre ++ post).sum ≤ s.length
      simp only [List.sum_append]
      omega

/-- C6: at every state of a process reachable from a fresh process of
non-negative length by schedule steps (vCPU.schedule_process) and
clearance steps (_clear_executed_instructions of vCPUCore.execute_process),
progress + current_scheduled_length never exceeds the process length:
the scheduling pass bounds each chunk by the length left to schedule,
and a clearance moves its chunk from current_scheduled_length into
progress. -/
theorem cpu_no_over_scheduling (len : ℤ) (hlen : 0 ≤ len) (s : CpuProcState)
    (h : CpuReachable len s) :
    s.progress + s.current_scheduled_length ≤ s.length := by
  have inv : 0 ≤ s.progress ∧ (∀ n ∈ s.outstanding, 0 < n) ∧
      s.progress + s.current_scheduled_length ≤ s.length := by
    induction h with
    | refl =>
      refine ⟨le_refl 0, ?_, ?_⟩
      · intro n hn
        exact absurd hn (List.not_mem_nil n)
      · simpa [CpuProcState.current_scheduled_length] using hlen
    | tail hab hbc ih =>
      exact CpuStep_preserves_invariant _ _ ih.1 ih.2.1 ih.2.2 hbc
  exact inv.2.2

/-- Witness for C6: a process of length 5 that is handed a chunk of 2 and
then has it cleared is reachable, and the invariant holds there. -/
theorem cpu_no_over_scheduling_witness :
    (0:ℤ) ≤ 5 ∧ CpuReachable 5 ⟨5, 2, []⟩ ∧
      (⟨5, 2, []⟩ : CpuProcState).progress +
        (⟨5, 2, []⟩ : CpuProcState).current_scheduled_length ≤
        (⟨5, 2, []⟩ : CpuProcState).length := by
  have step1 : CpuStep ⟨5, 0, []⟩ ⟨5, 0, [2]⟩ :=
    CpuStep.schedule ⟨5, 0, []⟩ true 0 1 2 2 (by decide) (by decide)
  have step2 : CpuStep ⟨5, 0, [2]⟩ ⟨5, 2, []⟩ :=
    CpuStep.clear ⟨5, 0, [2]⟩ 2 [] [] rfl
  have hreach : CpuReachable 5 ⟨5, 2, []⟩ :=
    Relation.ReflTransGen.tail (Relation.ReflTransGen.single step1) step2
  exact ⟨by decide, hreach, cpu_no_over_scheduling 5 (by decide) _ hreach⟩

/-- The queueing bookkeeping of cache_packet changes neither the path nor
the request fields nor the completion status of a packet. -/
theorem cacheMarkQueued_basic (node : ℕ) (p : PacketView) :
    (cacheMarkQueued node p).path = p.path ∧
    (cacheMarkQueued node p).hasRequest = p.hasRequest ∧
    (cacheMarkQueued node p).requestFailed = p.requestFailed ∧
    (cacheMarkQueued node p).completed = p.completed := by
  unfold cacheMarkQueued
  split <;> simp [PacketView.completed, List.mem_append]

/-- Appending a status other than COMPLETED never changes the completion
property of a packet. -/
theorem completed_status_append (q : PacketView) (st : Status)
    (h : ¬st = Status.COMPLETED) :
    ({ q with status := q.status ++ [st] } : PacketView).completed = q.completed := by
  have hne : (Status.COMPLETED = st) = False := eq_false (fun hh => h hh.symm)
  simp [PacketView.completed, List.mem_append, hne]

/-- vPacket.complete on a not-yet-completed packet whose request (when it
exists) has not failed: COMPLETED is appended and termination engaged. -/
theorem vPacket_complete_spec (p : PacketView) (hcomp : p.completed = false)
    (hreq : p.hasRequest = false ∨ p.requestFailed = false) :
    (vPacket.complete p).completed = true ∧
    (vPacket.complete p).terminate_engaged = true := by
  unfold vPacket.complete
  rw [if_neg (by simp [hcomp])]
  rcases hreq with h | h
  · rw [if_neg (by simp [h])]
    exact ⟨by simp [PacketView.completed, List.mem_append], rfl⟩
  · by_cases hh : p.hasRequest = true
    · rw [if_pos hh, if_pos (by simp [h])]
      exact ⟨by simp [PacketView.completed, List.mem_append], rfl⟩
    · rw [if_neg hh]
      exact ⟨by simp [PacketView.completed, List.mem_append], rfl⟩

/-- C4 counterexample: a loopback packet (path is just its source node 7)
cached at a vHost with ample RAM has 10 bytes reserved on the host RAM, a
packet handler spawned, and is not completed by the caching — the
loopback shortcut of the claim exists only on the gateway. -/
theorem host_cache_loopback_reserves_ram :
    vHost.cache_packet 7 ⟨100, 100⟩ ⟨[], [7], 10, false, false, 7, false, false⟩ =
      some { ram := ⟨100, 100 - 10⟩
             packet :=
               ⟨[Status.SCHEDULED, Status.QUEUED], [7], 10, false, false, 7, true, false⟩
             handlerSpawned := true } ∧
    (100:ℚ) - 10 < 100 ∧
    PacketView.completed
        ⟨[Status.SCHEDULED, Status.QUEUED], [7], 10, false, false, 7, true, false⟩ =
      false := by
  refine ⟨rfl, by norm_num, by decide⟩

/-- C4 amended: the no-RAM, no-handler, immediate-completion behaviour for
a packet whose source equals its destination holds when that node is the
gateway: vGateway.cache_packet touches no RAM Resource, spawns no handler
and completes the packet on the spot.  At a vHost, caching any packet — a
loopback packet included — reserves packet.size on the host RAM and
spawns a packet handler, and the caching itself never completes the
packet. -/
theorem packet_loopback_amended :
    (∀ (g : ℕ) (ram : Resource) (p : PacketView),
        p.path = [g] → p.completed = false →
        (p.hasRequest = false ∨ p.requestFailed = false) →
        (vGateway.cache_packet g ram p).ram = ram ∧
        (vGateway.cache_packet g ram p).handlerSpawned = false ∧
        ((vGateway.cache_packet g ram p).packet).completed = true ∧
        ((vGateway.cache_packet g ram p).packet).terminate_engaged = true) ∧
    (∀ (node : ℕ) (ram : Resource) (p : PacketView),
        p.size ≤ ram.available_quantity →
        vHost.cache_packet node ram p =
          some { ram := { capacity := ram.capacity,
                          available_quantity := ram.available_quantity - p.size }
                 packet := cacheMarkQueued node p
                 handlerSpawned := true }) ∧
    (∀ (node : ℕ) (p : PacketView),
        (cacheMarkQueued node p).completed = p.completed) := by
  refine ⟨?_, ?_, ?_⟩
  · intro g ram p hpath hcomp hreq
    have hb := cacheMarkQueued_basic g p
    have hcomp2 : ({ cacheMarkQueued g p with
        status := (cacheMarkQueued g p).status ++ [Status.DECODED] } : PacketView).completed
        = false := by
      rw [completed_status_append _ _ (by decide), hb.2.2.2]
      exact hcomp
    have hreq2 : ({ cacheMarkQueued g p with
        status := (cacheMarkQueued g p).status ++ [Status.DECODED] } : PacketView).hasRequest
          = false ∨
        ({ cacheMarkQueued g p with
        status := (cacheMarkQueued g p).status ++ [Status.DECODED] } : PacketView).requestFailed
          = false := by
      rcases hreq with h | h
      · exact Or.inl (by rw [show ({ cacheMarkQueued g p with
          status := (cacheMarkQueued g p).status ++ [Status.DECODED] } : PacketView).hasRequest
            = p.hasRequest from hb.2.1]; exact h)
      · exact Or.inr (by rw [show ({ cacheMarkQueued g p with
          status := (cacheMarkQueued g p).status ++ [Status.DECODED] } : PacketView).requestFailed
            = p.requestFailed from hb.2.2.1]; exact h)
    have key := vPacket_complete_spec _ hcomp2 hreq2
    have hlast : ({ cacheMarkQueued g p with
        status := (cacheMarkQueued g p).status ++ [Status.DECODED] } : PacketView).path.getLast?
        = some g := by
      rw [show ({ cacheMarkQueued g p with
        status := (cacheMarkQueued g p).status ++ [Status.DECODED] } : PacketView).path
          = p.path from hb.1, hpath]
      rfl
    have hre : (vGateway.cache_packet g ram p).packet =
        vPacket.complete { cacheMarkQueued g p with
          status := (cacheMarkQueued g p).status ++ [Status.DECODED] } := by
      have hstep : (vGateway.cache_packet g ram p).packet =
          (if ({ cacheMarkQueued g p with
              status := (cacheMarkQueued g p).status ++ [Status.DECODED] } :
                PacketView).path.getLast? = some g
           then vPacket.complete { cacheMarkQueued g p with
             status := (cacheMarkQueued g p).status ++ [Status.DECODED] }
           else { cacheMarkQueued g p with
             status := (cacheMarkQueued g p).status ++ [Status.DECODED] }) := rfl
      rw [hstep, if_pos hlast]
    exact ⟨rfl, rfl, by rw [hre]; exact key.1, by rw [hre]; exact key.2⟩
  · intro node ram p h
    unfold vHost.cache_packet Resource.distribute
    rw [if_neg (not_lt.mpr h)]
  · intro node p
    exact (cacheMarkQueued_basic node p).2.2.2

/-- Witness for the amended C4: a loopback packet at gateway node 3 is
completed on the spot with no handler and an untouched RAM Resource, and
a packet cached at host node 7 with ample RAM gets a reservation and a
handler. -/
theorem packet_loopback_amended_witness :
    ((vGateway.cache_packet 3 ⟨1, 1⟩ ⟨[], [3], 10, false, false, 3, false, false⟩).ram
        = ⟨1, 1⟩ ∧
      (vGateway.cache_packet 3 ⟨1, 1⟩
          ⟨[], [3], 10, false, false, 3, false, false⟩).handlerSpawned = false ∧
      ((vGateway.cache_packet 3 ⟨1, 1⟩
          ⟨[], [3], 10, false, false, 3, false, false⟩).packet).completed = true ∧
      ((vGateway.cache_packet 3 ⟨1, 1⟩
          ⟨[], [3], 10, false, false, 3, false, false⟩).packet).terminate_engaged = true) ∧
    vHost.cache_packet 7 ⟨200, 100⟩ ⟨[], [7], 10, false, false, 7, false, false⟩ =
      some { ram := { capacity := 200, available_quantity := (100:ℚ) - 10 }
             packet := cacheMarkQueued 7 ⟨[], [7], 10, false, false, 7, false, false⟩
             handlerSpawned := true } :=
  ⟨packet_loopback_amended.1 3 ⟨1, 1⟩ ⟨[], [3], 10, false, false, 3, false, false⟩
      rfl (by decide) (Or.inl rfl),
    packet_loopback_amended.2.1 7 ⟨200, 100⟩ ⟨[], [7], 10, false, false, 7, false, false⟩
      (by decide)⟩

/-- The crash of a not-yet-failed container produces the full cascade:
FAILED and TERMINATED in the status, every live process marked FAILED,
retained volumes detached and the others terminated, every live request
failed, and one replacement container instantiated with the retained
volumes attached. -/
theorem vContainer_crash_spec (c : ContainerState) (hfail : c.failed = false) :
    ∃ r : CrashResult,
      vContainer.crash c false = some r ∧
      Status.FAILED ∈ r.status ∧ Status.TERMINATED ∈ r.status ∧
      (∀ (i : ℕ) (p q : ProcRec),
        c.processes[i]? = some p → r.processes[i]? = some q →
          p.terminated = false → q.failed = true) ∧
      (∀ (i : ℕ) (v w : VolRec),
        c.volumes[i]? = some v → r.volumes[i]? = some w →
          (v.retain = true → w.attached = false) ∧
          (v.retain = false → w.terminated = true)) ∧
      (∀ (i : ℕ) (a b : ReqRec),
        c.requests[i]? = some a → r.requests[i]? = some b →
          a.terminated = false → b.failed = true) ∧
      (∃ vols : List VolRec, r.replacement = some vols ∧
        vols.length = (c.volumes.filter fun v => v.retain).length ∧
        ∀ v ∈ vols, v.retain = true ∧ v.attached = true) := by
  unfold vContainer.crash
  rw [if_neg (by rw [hfail]; simp)]
  refine ⟨_, rfl, ?_, ?_, ?_, ?_, ?_, ?_⟩
  · show Status.FAILED ∈ c.status ++ [Status.FAILED, Status.TERMINATED]
    simp
  · show Status.TERMINATED ∈ c.status ++ [Status.FAILED, Status.TERMINATED]
    simp
  · intro i p q hp hq hterm
    have hq2 : (c.processes.map fun p =>
        if !p.terminated then vProcess.crash p else p)[i]? = some q := hq
    rw [List.getElem?_map, hp] at hq2
    simp only [Option.map_some', Option.some.injEq] at hq2
    rw [← hq2, hterm]
    simp only [Bool.not_false, if_pos]
    unfold vProcess.crash
    by_cases hf : p.failed = true
    · rw [if_pos hf]
      exact hf
    · rw [if_neg hf]
  · intro i v w hv hw
    have hw2 : (c.volumes.map fun v =>
        if v.retain then { v with attached := false }
        else { v with terminated := true })[i]? = some w := hw
    rw [List.getElem?_map, hv] at hw2
    simp only [Option.map_some', Option.some.injEq] at hw2
    constructor
    · intro hr
      rw [← hw2, if_pos (by rw [hr])]
    · intro hr
      rw [← hw2, if_neg (by rw [hr]; simp)]
  · intro i a b ha hb hterm
    have hb2 : (c.requests.map fun r =>
        if !r.terminated then vRequest.fail r else r)[i]? = some b := hb
    rw [List.getElem?_map, ha] at hb2
    simp only [Option.map_some', Option.some.injEq] at hb2
    rw [← hb2, hterm]
    simp only [Bool.not_false, if_pos]
    unfold vRequest.fail
    by_cases hf : a.failed = true
    · rw [if_pos hf]
      exact hf
    · rw [if_neg hf]
  · refine ⟨((c.volumes.filter fun v => v.retain).map fun v =>
        { v with attached := false }).map (fun v => { v with attached := true }),
      ?_, ?_, ?_⟩
    · show (if ContainerState.failed
          { c with status := c.status ++ [Status.FAILED, Status.TERMINATED] } = true
        then vMicroservice.recover false
          (((c.volumes.filter fun v => v.retain).map fun v => { v with attached := false }))
        else none) = _
      rw [if_pos (by simp [ContainerState.failed])]
      unfold vMicroservice.recover
      rw [if_neg (by simp)]
    · simp
    · intro v hv
      simp only [List.mem_map] at hv
      obtain ⟨w, hw, rfl⟩ := hv
      obtain ⟨u, hu, rfl⟩ := hw
      have := (List.mem_filter.mp hu).2
      exact ⟨by simpa using this, rfl⟩

/-- C7: when vContainer.accept_process fails to reserve the ram_usage of
the incoming process on the container RAM Resource, or reserves it there
but fails on the host RAM Resource, the container crashes: it is marked
FAILED and TERMINATED, every process of the container (the incoming one
included) that was not terminated is marked FAILED, retained volumes are
detached and non-retained volumes terminated, every pending request
fails, and the owning microservice (not terminated) instantiates one
replacement container with the retained volumes re-attached. -/
theorem vContainer_accept_process_crash (c : ContainerState) (hostRam : Resource)
    (ramUsage : ℚ) (hfail : c.failed = false)
    (hram : c.ram.available_quantity < ramUsage ∨
      (¬c.ram.available_quantity < ramUsage ∧
        hostRam.available_quantity < ramUsage)) :
    ∃ r : CrashResult,
      vContainer.accept_process c hostRam ramUsage false =
        AcceptOutcome.crashed (some r) hostRam ∧
      Status.FAILED ∈ r.status ∧ Status.TERMINATED ∈ r.status ∧
      (∀ (i : ℕ) (p q : ProcRec),
        (c.processes ++ [⟨false, false⟩])[i]? = some p → r.processes[i]? = some q →
          p.terminated = false → q.failed = true) ∧
      (∀ (i : ℕ) (v w : VolRec),
        c.volumes[i]? = some v → r.volumes[i]? = some w →
          (v.retain = true → w.attached = false) ∧
          (v.retain = false → w.terminated = true)) ∧
      (∀ (i : ℕ) (a b : ReqRec),
        c.requests[i]? = some a → r.requests[i]? = some b →
          a.terminated = false → b.failed = true) ∧
      (∃ vols : List VolRec, r.replacement = some vols ∧
        vols.length = (c.volumes.filter fun v => v.retain).length ∧
        ∀ v ∈ vols, v.retain = true ∧ v.attached = true) := by
  rcases hram with h | ⟨h1, h2⟩
  · obtain ⟨r, hcr, hf, ht, hprocs, hvols, hreqs, hrepl⟩ :=
      vContainer_crash_spec
        { c with processes := c.processes ++ [⟨false, false⟩] }
        (by simpa [ContainerState.failed] using hfail)
    refine ⟨r, ?_, hf, ht, hprocs, hvols, hreqs, hrepl⟩
    have hd : Resource.distribute c.ram ramUsage = none := by
      unfold Resource.distribute
      rw [if_pos h]
    simp only [vContainer.accept_process, hd, hcr]
  · obtain ⟨r, hcr, hf, ht, hprocs, hvols, hreqs, hrepl⟩ :=
      vContainer_crash_spec
        { c with
          processes := c.processes ++ [⟨false, false⟩],
          ram := { c.ram with
            available_quantity := c.ram.available_quantity - ramUsage } }
        (by simpa [ContainerState.failed] using hfail)
    refine ⟨r, ?_, hf, ht, hprocs, hvols, hreqs, hrepl⟩
    have hd1 : Resource.distribute c.ram ramUsage =
        some { c.ram with
          available_quantity := c.ram.available_quantity - ramUsage } := by
      unfold Resource.distribute
      rw [if_neg h1]
    have hd2 : Resource.distribute hostRam ramUsage = none := by
      unfold Resource.distribute
      rw [if_pos h2]
    simp only [vContainer.accept_process, hd1, hd2, hcr]

/-- Witness for C7: a container with 1 byte of available RAM accepting a
process that needs 5 bytes crashes with the full cascade. -/
theorem vContainer_accept_process_crash_witness :
    ∃ r : CrashResult,
      vContainer.accept_process
          ⟨[Status.CREATED], [], [⟨true, true, false⟩, ⟨false, true, false⟩],
            [⟨false, false⟩], ⟨10, 1⟩⟩ ⟨100, 100⟩ 5 false =
        AcceptOutcome.crashed (some r) ⟨100, 100⟩ ∧
      Status.FAILED ∈ r.status ∧ Status.TERMINATED ∈ r.status ∧
      (∀ (i : ℕ) (p q : ProcRec),
        (([] : List ProcRec) ++ [⟨false, false⟩])[i]? = some p →
          r.processes[i]? = some q → p.terminated = false → q.failed = true) ∧
      (∀ (i : ℕ) (v w : VolRec),
        ([⟨true, true, false⟩, ⟨false, true, false⟩] : List VolRec)[i]? = some v →
          r.volumes[i]? = some w →
          (v.retain = true → w.attached = false) ∧
          (v.retain = false → w.terminated = true)) ∧
      (∀ (i : ℕ) (a b : ReqRec),
        ([⟨false, false⟩] : List ReqRec)[i]? = some a → r.requests[i]? = some b →
          a.terminated = false → b.failed = true) ∧
      (∃ vols : List VolRec, r.replacement = some vols ∧
        vols.length =
          (([⟨true, true, false⟩, ⟨false, true, false⟩] : List VolRec).filter
            fun v => v.retain).length ∧
        ∀ v ∈ vols, v.retain = true ∧ v.attached = true) :=
  vContainer_accept_process_crash
    ⟨[Status.CREATED], [], [⟨true, true, false⟩, ⟨false, true, false⟩],
      [⟨false, false⟩], ⟨10, 1⟩⟩ ⟨100, 100⟩ 5 (by decide) (Or.inl (by decide))

/-- vRequest.fail always leaves the request marked FAILED. -/
theorem vRequest_fail_failed (r : ReqRec) : (vRequest.fail r).failed = true := by
  unfold vRequest.fail
  by_cases h : r.failed = true
  · rw [if_pos h]
    exact h
  · rw [if_neg h]

/-- C8: when a transmitted packet arrives at the peer node and the RAM
distribution of the peer during cache_packet fails, the packet is marked
DROPPED and terminated, and the owning request of the packet, when it
has one, is failed by vPacket.termination. -/
theorem vNIC_receive_packet_drop (node : ℕ) (hostRam uplink : Resource)
    (p : PacketView) (req : Option ReqRec)
    (hram : hostRam.available_quantity < p.size) (hdrop : p.dropped = false) :
    (vNIC.receive_packet_arrival node hostRam uplink p req).packet.dropped = true ∧
    Status.TERMINATED ∈
      (vNIC.receive_packet_arrival node hostRam uplink p req).packet.status ∧
    (vNIC.receive_packet_arrival node hostRam uplink p req).packet.terminate_engaged
      = true ∧
    (∀ rq : ReqRec, req = some rq →
      (vNIC.receive_packet_arrival node hostRam uplink p req).request =
        some (vRequest.fail rq) ∧ (vRequest.fail rq).failed = true) := by
  have hcache : vHost.cache_packet node hostRam
      { p with status := (p.status.erase Status.TRANSMITTING).erase Status.DECODED }
      = none := by
    unfold vHost.cache_packet Resource.distribute
    rw [if_pos hram]
  have hd1 : ({ p with
      status := (p.status.erase Status.TRANSMITTING).erase Status.DECODED } :
        PacketView).dropped = false := by
    simp only [PacketView.dropped, decide_eq_false_iff_not] at hdrop ⊢
    intro hmem
    exact hdrop (List.mem_of_mem_erase (List.mem_of_mem_erase hmem))
  have hdrop1 : vPacket.drop { p with
      status := (p.status.erase Status.TRANSMITTING).erase Status.DECODED } =
      { p with
        status :=
          ((p.status.erase Status.TRANSMITTING).erase Status.DECODED) ++
            [Status.DROPPED],
        terminate_engaged := true } := by
    unfold vPacket.drop
    rw [if_neg (by rw [hd1]; simp)]
  have hres : vNIC.receive_packet_arrival node hostRam uplink p req =
      { delivered := false, ram := hostRam, uplink := uplink.release p.size,
        packet := { p with
          status :=
            (((p.status.erase Status.TRANSMITTING).erase Status.DECODED) ++
              [Status.DROPPED]) ++ [Status.TERMINATED],
          terminate_engaged := true },
        request :=
          if ({ p with
              status :=
                (((p.status.erase Status.TRANSMITTING).erase Status.DECODED) ++
                  [Status.DROPPED]) ++ [Status.TERMINATED],
              terminate_engaged := true } : PacketView).dropped
          then req.map vRequest.fail else req } := by
    simp only [vNIC.receive_packet_arrival, hcache, hdrop1]
  have hdropped : ({ p with
      status :=
        (((p.status.erase Status.TRANSMITTING).erase Status.DECODED) ++
          [Status.DROPPED]) ++ [Status.TERMINATED],
      terminate_engaged := true } : PacketView).dropped = true := by
    simp [PacketView.dropped, List.mem_append]
  refine ⟨?_, ?_, ?_, ?_⟩
  · rw [hres]
    exact hdropped
  · rw [hres]
    simp [List.mem_append]
  · rw [hres]
  · intro rq hrq
    rw [hres]
    simp only [hdropped, if_pos, hrq, Option.map_some']
    exact ⟨trivial, vRequest_fail_failed rq⟩

/-- Witness for C8: a packet of size 64 arriving at a node with 32 bytes
of available RAM is dropped, terminated, and its request fails. -/
theorem vNIC_receive_packet_drop_witness :
    (vNIC.receive_packet_arrival 4 ⟨128, 32⟩ ⟨100, 50⟩
        ⟨[Status.SCHEDULED, Status.DECODED, Status.TRANSMITTING], [3, 4], 64,
          true, false, 3, true, false⟩
        (some ⟨false, false⟩)).packet.dropped = true ∧
    Status.TERMINATED ∈
      (vNIC.receive_packet_arrival 4 ⟨128, 32⟩ ⟨100, 50⟩
        ⟨[Status.SCHEDULED, Status.DECODED, Status.TRANSMITTING], [3, 4], 64,
          true, false, 3, true, false⟩
        (some ⟨false, false⟩)).packet.status ∧
    (vNIC.receive_packet_arrival 4 ⟨128, 32⟩ ⟨100, 50⟩
        ⟨[Status.SCHEDULED, Status.DECODED, Status.TRANSMITTING], [3, 4], 64,
          true, false, 3, true, false⟩
        (some ⟨false, false⟩)).packet.terminate_engaged = true ∧
    (∀ rq : ReqRec, (some (⟨false, false⟩ : ReqRec)) = some rq →
      (vNIC.receive_packet_arrival 4 ⟨128, 32⟩ ⟨100, 50⟩
        ⟨[Status.SCHEDULED, Status.DECODED, Status.TRANSMITTING], [3, 4], 64,
          true, false, 3, true, false⟩
        (some ⟨false, false⟩)).request = some (vRequest.fail rq) ∧
        (vRequest.fail rq).failed = true) :=
  vNIC_receive_packet_drop 4 ⟨128, 32⟩ ⟨100, 50⟩
    ⟨[Status.SCHEDULED, Status.DECODED, Status.TRANSMITTING], [3, 4], 64,
      true, false, 3, true, false⟩
    (some ⟨false, false⟩) (by decide) (by decide)

/-- One workflow event preserves the completion and failure bookkeeping
invariant. -/
theorem WorkflowStep_preserves_invariant (s t : WorkflowState)
    (h1 : s.completed = true → s.failed = false ∧ s.terminated = true ∧ s.remaining = 0)
    (h2 : s.failed = true → s.terminated = true ∧ s.remaining = 0)
    (h3 : s.terminated = true → s.completed = true ∨ s.failed = true)
    (st : WorkflowStep s t) :
    (t.completed = true → t.failed = false ∧ t.terminated = true ∧ t.remaining = 0) ∧
    (t.failed = true → t.terminated = true ∧ t.remaining = 0) ∧
    (t.terminated = true → t.completed = true ∨ t.failed = true) := by
  cases st with
  | request_completes_mid h =>
    refine ⟨?_, ?_, ?_⟩
    · intro hc
      exact absurd (h1 hc).2.2 (by omega)
    · intro hf
      exact absurd (h2 hf).2 (by omega)
    · intro ht
      rcases h3 ht with hc | hf
      · exact absurd (h1 hc).2.2 (by omega)
      · exact absurd (h2 hf).2 (by omega)
  | request_completes_last h =>
    by_cases hf : s.failed = true
    · rw [if_pos hf]
      refine ⟨?_, ?_, ?_⟩
      · intro hc
        exact absurd (h1 hc).1 (by rw [hf]; simp)
      · intro _
        exact ⟨(h2 hf).1, rfl⟩
      · intro ht
        exact h3 ht
    · rw [if_neg hf]
      refine ⟨?_, ?_, ?_⟩
      · intro _
        exact ⟨by simpa using hf, rfl, rfl⟩
      · intro hfc
        exact absurd hfc hf
      · intro _
        exact Or.inl rfl
  | request_fails h =>
    refine ⟨?_, ?_, ?_⟩
    · intro hc
      exact absurd (h1 hc).2.2 (by omega)
    · intro _
      exact ⟨rfl, rfl⟩
    · intro _
      exact Or.inr rfl

/-- C9: at every reachable state of a workflow, the COMPLETED and FAILED
flags are mutually exclusive, and a terminated workflow carries exactly
one of the two: completion requires the last request of the chain to
complete with the flow not failed, and any request failure marks the
flow FAILED and cancels the rest of the chain. -/
theorem workflow_completed_failed_exclusive (n : ℕ) (s : WorkflowState)
    (h : WorkflowReachable n s) :
    ¬(s.completed = true ∧ s.failed = true) ∧
    (s.terminated = true →
      (s.completed = true ∨ s.failed = true) ∧
        ¬(s.completed = true ∧ s.failed = true)) := by
  have inv : (s.completed = true →
        s.failed = false ∧ s.terminated = true ∧ s.remaining = 0) ∧
      (s.failed = true → s.terminated = true ∧ s.remaining = 0) ∧
      (s.terminated = true → s.completed = true ∨ s.failed = true) := by
    induction h with
    | refl =>
      refine ⟨?_, ?_, ?_⟩ <;> intro hx <;> simp at hx
    | tail hab hbc ih =>
      exact WorkflowStep_preserves_invariant _ _ ih.1 ih.2.1 ih.2.2 hbc
  have hexcl : ¬(s.completed = true ∧ s.failed = true) := by
    rintro ⟨hc, hf⟩
    have := (inv.1 hc).1
    rw [hf] at this
    exact absurd this (by simp)
  exact ⟨hexcl, fun ht => ⟨inv.2.2 ht, hexcl⟩⟩

/-- Witness for C9: the workflow whose single request completes is
reachable, terminated, and carries COMPLETED and not FAILED. -/
theorem workflow_completed_failed_exclusive_witness :
    WorkflowReachable 1 ⟨true, false, true, 0⟩ ∧
    ¬((⟨true, false, true, 0⟩ : WorkflowState).completed = true ∧
      (⟨true, false, true, 0⟩ : WorkflowState).failed = true) ∧
    (((⟨true, false, true, 0⟩ : WorkflowState).completed = true ∨
        (⟨true, false, true, 0⟩ : WorkflowState).failed = true) ∧
      ¬((⟨true, false, true, 0⟩ : WorkflowState).completed = true ∧
        (⟨true, false, true, 0⟩ : WorkflowState).failed = true)) := by
  have hstep : WorkflowStep ⟨false, false, false, 1⟩ ⟨true, false, true, 0⟩ :=
    WorkflowStep.request_completes_last ⟨false, false, false, 1⟩ rfl
  have hreach : WorkflowReachable 1 ⟨true, false, true, 0⟩ :=
    Relation.ReflTransGen.single hstep
  have hmain := workflow_completed_failed_exclusive 1 ⟨true, false, true, 0⟩ hreach
  exact ⟨hreach, hmain.1, hmain.2 rfl⟩

end PyCloudSim
